import Mathlib

/-!
Verification of the BC3 (FIEBDC-3) parser `bc3_reader/parser.py`.

This file gives a shallow embedding, in Lean 4, of the parsing core:
the tokenizer (`_parse_content`, `_split_campos`), the per-record
decoders (`_parse_registro_v/k/c/d/y/m/t`, `_guardar_otro`), the numeric
normalizer (`_parse_numero`), and the flattening step
(`get_partidas_con_detalles` with its `orden_codigo` sort key), together
with theorems settling the specification claims about them.

Modelling conventions:
* Python strings are Lean `String`s; the handful of `str` methods the
  source uses (`strip`, `replace`, `split`, `upper`, `isdigit`) are
  re-implemented below over `List Char` with explicit fuel so that all
  definitions reduce inside the kernel.  `strip`/`upper`/`isdigit` are
  modelled on their ASCII behaviour, which is all the format exercises.
* Python `float` values produced by `_parse_numero` are modelled as
  exact scaled decimals (`Dec`: an integer mantissa with a base-10
  exponent).  Every numeric string the parser accepts denotes such a
  decimal; `decToRat` embeds the value into `ℚ` for value statements.
  `float`'s exponent / underscore / inf / nan spellings are not
  exercised by the parser's inputs and are not modelled.
* Python `dict`s are insertion-ordered association lists; assignment
  replaces the value of an existing key in place and appends new keys.
* Python `sorted` raises `TypeError` when it compares an `int` with a
  `str` inside the mixed tuples produced by `orden_codigo`; comparison
  is therefore modelled as `Option`-valued (`none` = `TypeError`), and
  the flattening step returns `none` when some pair of sort keys is
  incomparable.
-/

/-! ## String primitives (models of the Python `str` methods used) -/

/-- Characters treated as whitespace by Python's `str.strip()` (ASCII range). -/
def esEspacioPy (c : Char) : Bool :=
  c == ' ' || c == '\t' || c == '\n' || c == '\r' || c == Char.ofNat 11 || c == Char.ofNat 12

/-- Model of Python `str.strip()`: drop whitespace from both ends. -/
def pyStripS (s : String) : String :=
  String.mk (((s.data.dropWhile esEspacioPy).reverse.dropWhile esEspacioPy).reverse)

/-- ASCII uppercase of one character, as Python `str.upper()` does on ASCII text. -/
def pyUpperC (c : Char) : Char :=
  if 'a' ≤ c ∧ c ≤ 'z' then Char.ofNat (c.toNat - 32) else c

/-- Model of Python `str.upper()` (ASCII behaviour). -/
def pyUpperS (s : String) : String :=
  String.mk (s.data.map pyUpperC)

/-- Does `pat` occur at the head of `l`? -/
def esPrefijo : List Char → List Char → Bool
  | [], _ => true
  | _ :: _, [] => false
  | a :: as, b :: bs => a == b && esPrefijo as bs

/-- Fuelled worker for `pyReplace`; the fuel is the length of the scanned list,
which bounds the number of steps. -/
def pyReplaceAux (pat rep : List Char) : Nat → List Char → List Char
  | 0, l => l
  | _ + 1, [] => []
  | fuel + 1, c :: rest =>
    if !pat.isEmpty && esPrefijo pat (c :: rest) then
      rep ++ pyReplaceAux pat rep fuel (rest.drop (pat.length - 1))
    else
      c :: pyReplaceAux pat rep fuel rest

/-- Model of Python `str.replace(pat, rep)`: leftmost, non-overlapping. -/
def pyReplace (s pat rep : String) : String :=
  String.mk (pyReplaceAux pat.data rep.data s.data.length s.data)

/-- Fuelled worker for `pySplitOn`. -/
def pySplitAux (sep : List Char) : Nat → List Char → List (List Char)
  | 0, l => [l]
  | _ + 1, [] => [[]]
  | fuel + 1, c :: rest =>
    if !sep.isEmpty && esPrefijo sep (c :: rest) then
      [] :: pySplitAux sep fuel (rest.drop (sep.length - 1))
    else
      match pySplitAux sep fuel rest with
      | [] => [[c]]
      | h :: t => (c :: h) :: t

/-- Model of Python `str.split(sep)` with a non-empty separator (also used for
`re.split` on a literal, as `_split_campos` does with `r"\|"`). -/
def pySplitOn (s sep : String) : List String :=
  (pySplitAux sep.data s.data.length s.data).map String.mk

/-- Model of `re.split(r"[.#]", s)`: split on either of the two class characters. -/
def splitPuntoAlmohadilla : List Char → List (List Char)
  | [] => [[]]
  | c :: rest =>
    if c == '.' || c == '#' then
      [] :: splitPuntoAlmohadilla rest
    else
      match splitPuntoAlmohadilla rest with
      | [] => [[c]]
      | h :: t => (c :: h) :: t

/-- Model of Python `str.isdigit()` on ASCII text: non-empty and all digits. -/
def esDigitos (s : String) : Bool :=
  !s.data.isEmpty && s.data.all Char.isDigit

/-- Numeric value of a digit string, as Python `int(...)` reads it. -/
def digitsVal (l : List Char) : Nat :=
  l.foldl (fun a c => 10 * a + (c.toNat - 48)) 0

/-- Lexicographic comparison of character lists by code point, as Python
compares `str` values. -/
def listLt : List Char → List Char → Bool
  | [], [] => false
  | [], _ :: _ => true
  | _ :: _, [] => false
  | a :: as, b :: bs => if a == b then listLt as bs else decide (a < b)

/-- Python `str` less-than. -/
def strLt (a b : String) : Bool := listLt a.data b.data

/-! ## Exact decimals: the model of the `float` values used by the parser -/

/-- An exact scaled decimal: the value `num / 10 ^ exp`.  This models the
`float` values `_parse_numero` produces from the decimal strings of a BC3
file. -/
structure Dec where
  num : Int
  exp : Nat
deriving DecidableEq, Repr

/-- The rational value of a `Dec`. -/
def decToRat (d : Dec) : ℚ := d.num / 10 ^ d.exp

/-- Product of two decimals (model of `float` multiplication on exact inputs). -/
def decMul (a b : Dec) : Dec := ⟨a.num * b.num, a.exp + b.exp⟩

/-- Is the decimal's value exactly 1?  (Model of `x == 1.0`.) -/
def decEsUno (d : Dec) : Bool := d.num == (10 : Int) ^ d.exp

/-- Model of `self._parse_numero(s) != 1.0` given the parse result: Python's
`None != 1.0` is `True`, so an absent value counts as "differs from 1". -/
def noEsUno (o : Option Dec) : Bool :=
  match o with
  | some d => !decEsUno d
  | none => true

/-- Model of Python `float(s)` restricted to plain decimal literals
`[+-]? (digits [. digits*] | . digits)` — the only spellings the
transformed BC3 numeric fields can take (exponents, underscores, `inf`
and `nan` are not modelled). -/
def floatOfString (s : String) : Option Dec :=
  let aux : List Char → Option Dec := fun cs =>
    let ip := cs.takeWhile Char.isDigit
    let rest := cs.dropWhile Char.isDigit
    match rest with
    | [] => if ip.isEmpty then none else some ⟨(digitsVal ip : Int), 0⟩
    | '.' :: fp =>
      if fp.all Char.isDigit && !(ip.isEmpty && fp.isEmpty) then
        some ⟨(digitsVal ip * 10 ^ fp.length + digitsVal fp : Int), fp.length⟩
      else none
    | _ => none
  match s.data with
  | '+' :: t => aux (String.mk t).data
  | '-' :: t => (aux (String.mk t).data).map (fun d => ⟨-d.num, d.exp⟩)
  | _ => aux s.data

/-- Model of `BC3Parser._parse_numero`: strip the ends, delete internal
spaces, delete `.` (thousands separator), turn `,` into `.`, then parse as a
float; `None` for blank or unparseable input. -/
def parseNumero (s : String) : Option Dec :=
  if pyStripS s = "" then none
  else
    floatOfString (pyReplace (pyReplace (pyReplace (pyStripS s) " " "") "." "") "," ".")

/-- Round `a / b` (with `b > 0`) to the nearest integer, halves up: the model
of the rounding `f"{x:,.2f}"` performs when producing two decimals. -/
def roundHalf (a : Int) (b : Nat) : Int := Int.fdiv (2 * a + b) (2 * b)

/-- Fuelled worker grouping digits in threes (least significant first). -/
def chunk3Aux : Nat → List Char → List (List Char)
  | 0, _ => []
  | _ + 1, [] => []
  | fuel + 1, c :: rest => (c :: rest.take 2) :: chunk3Aux fuel (rest.drop 2)

/-- Insert `.` as thousands separator into a digit string. -/
def agrupaMiles (s : String) : String :=
  String.mk (List.intercalate ['.'] (chunk3Aux s.data.length s.data.reverse)).reverse

/-- Two-digit rendering of a number below 100. -/
def dosDigitos (n : Nat) : String :=
  (if n < 10 then "0" else "") ++ toString n

/-- Model of the amount formatting in `get_partidas_con_detalles`:
`f"{x:,.2f}"` followed by the `,`/`.`-swapping `replace` chain, i.e. two
decimal digits, `,` as decimal separator and `.` as thousands separator. -/
def formatImporte (d : Dec) : String :=
  let cents : Int := roundHalf (d.num * 100) (10 ^ d.exp)
  let sgn := if cents < 0 then "-" else ""
  let n := cents.natAbs
  sgn ++ agrupaMiles (toString (n / 100)) ++ "," ++ dosDigitos (n % 100)

/-- Fuelled canonicalizer: drop trailing zero decimals (a `float` does not
remember them). -/
def decCanonAux : Nat → Int → Nat → Dec
  | 0, n, e => ⟨n, e⟩
  | fuel + 1, n, e =>
    if e = 0 then ⟨n, 0⟩
    else if n % 10 == 0 then decCanonAux fuel (n / 10) (e - 1)
    else ⟨n, e⟩

/-- Model of Python `str(float)` for the decimal values at hand: canonical
mantissa, always at least one decimal digit (`str(10.0) = "10.0"`). -/
def floatToStr (d : Dec) : String :=
  let c := decCanonAux d.exp d.num d.exp
  let sgn := if c.num < 0 then "-" else ""
  let n := c.num.natAbs
  let k := max c.exp 1
  let m := if c.exp = 0 then n * 10 else n
  sgn ++ toString (m / 10 ^ k) ++ "." ++
    (String.mk (List.replicate (k - (toString (m % 10 ^ k)).length) '0')) ++ toString (m % 10 ^ k)

/-! ## Sub-field helpers (`_primer_subcampo`, `_todos_subcampos`) -/

/-- Model of `_primer_subcampo`: first `\`-separated sub-field, stripped;
empty string for blank input. -/
def primerSubcampo (valor : String) : String :=
  if pyStripS valor = "" then ""
  else pyStripS ((pySplitOn (pyStripS valor) "\\").headD "")

/-- Model of `_todos_subcampos`: all non-blank `\`-separated sub-fields,
each stripped. -/
def todosSubcampos (valor : String) : List String :=
  if pyStripS valor = "" then []
  else ((pySplitOn (pyStripS valor) "\\").map pyStripS).filter (fun x => x != "")

/-! ## Python dictionaries as insertion-ordered association lists -/

/-- Lookup in a Python `dict` modelled as an association list. -/
def dictLookup {α : Type} : List (String × α) → String → Option α
  | [], _ => none
  | e :: t, k => if e.1 = k then some e.2 else dictLookup t k

/-- Python `dict` assignment `d[k] = v`: replace the value of an existing key
in place, else append the new key at the end. -/
def dictInsert {α : Type} : List (String × α) → String → α → List (String × α)
  | [], k, v => [(k, v)]
  | e :: t, k, v => if e.1 = k then (k, v) :: t else e :: dictInsert t k v

/-- The keys of a modelled `dict`, in insertion order. -/
def dictKeys {α : Type} (d : List (String × α)) : List String := d.map (·.1)

/-! ## The budget aggregate (`PresupuestoBC3`) -/

/-- Model of the `PresupuestoBC3` dataclass.  `metadata` is set only by the
byte-level entry points (`parse`, `parse_from_bytes`), which wrap
`_parse_content`; the string-level parse modelled here never touches it. -/
structure PresupuestoBC3 where
  version : List (String × String) := []
  coeficientes : List (String × List String) := []
  conceptos : List (String × List String) := []
  descomposiciones : List (String × List String) := []
  mediciones : List (String × List String) := []
  textos : List (String × String) := []
  metadata : List (String × String) := []
  otros_registros : List (String × List (List String)) := []
deriving DecidableEq, Repr

/-- A freshly constructed, empty budget. -/
def presupuestoVacio : PresupuestoBC3 := {}

/-! ## Record decoders -/

/-- The fixed key list of `_parse_registro_v`. -/
def versionKeys : List String :=
  ["propiedad", "version_formato", "programa_emision", "cabecera", "charset",
   "comentario", "tipo_info", "num_certificacion", "fecha_certificacion", "url_base"]

/-- Model of `_parse_registro_v`: zip the fixed key list with
`campos[1:11]` when more than 11 fields are present, else with
`campos[1:] + [""] * 10` (Python `zip` truncates to the shorter list). -/
def parseRegistroV (campos : List String) (p : PresupuestoBC3) : PresupuestoBC3 :=
  let vals :=
    if 11 < campos.length then (campos.drop 1).take 10
    else campos.drop 1 ++ List.replicate 10 ""
  { p with version := versionKeys.zip vals }

/-- Model of `_parse_registro_k`: store `campos[1:]` raw under `"raw"`. -/
def parseRegistroK (campos : List String) (p : PresupuestoBC3) : PresupuestoBC3 :=
  if 1 < campos.length then
    { p with coeficientes := dictInsert p.coeficientes "raw" (campos.drop 1) }
  else p

/-- The stripped field at position `i` of the record, the cleaned-code
computation `_limpiar_codigo(campos[i])` shared by the `D`, `Y`, `M` and `T`
decoders (with `i = 1`). -/
def codigoLimpio (campos : List String) (i : Nat) : String :=
  pyStripS (campos.getD i "")

/-- First sub-field of `campos[i]`, falling back to the raw stripped field
when the first sub-field is blank (the Python `or` in `_parse_registro_c`),
guarded by the length test `len(campos) > i`. -/
def campoPrincipal (campos : List String) (i : Nat) : String :=
  if i < campos.length then
    if primerSubcampo (campos.getD i "") = "" then pyStripS (campos.getD i "")
    else primerSubcampo (campos.getD i "")
  else ""

/-- First sub-field of `campos[i]` guarded by the length test, without the
raw fallback (used for unit, summary and type). -/
def campoPrimero (campos : List String) (i : Nat) : String :=
  if i < campos.length then primerSubcampo (campos.getD i "") else ""

/-- The concept code of a `C` record: first sub-field of `campos[1]`, or the
raw stripped field when that is blank, then cleaned. -/
def codigoDeC (campos : List String) : String :=
  pyStripS (campoPrincipal campos 1)

/-- The `[unidad, resumen, precio, fecha, tipo]` value a `C` record stores. -/
def valorConcepto (campos : List String) : List String :=
  [campoPrimero campos 2, campoPrimero campos 3, campoPrincipal campos 4,
   campoPrincipal campos 5, campoPrimero campos 6]

/-- Model of `_parse_registro_c`: store `[unidad, resumen, precio, fecha, tipo]`
under the cleaned code; records with fewer than 4 fields or a blank code are
dropped. -/
def parseRegistroC (campos : List String) (p : PresupuestoBC3) : PresupuestoBC3 :=
  if campos.length < 4 then p
  else if codigoDeC campos = "" then p
  else { p with conceptos := dictInsert p.conceptos (codigoDeC campos) (valorConcepto campos) }

/-- Rendering of one decomposition child field, shared verbatim by the `D`
and `Y` decoders: sub-field 0 is the child code, sub-field 1 the factor
(default `"1"`), sub-field 2 the yield (default `"1"`); fields with no
sub-fields contribute nothing (`continue`). -/
def renderLinea (sub : List String) : Option String :=
  match sub with
  | [] => none
  | hijo :: rest =>
    let factor := rest.getD 0 "1"
    let rendimiento := rest.getD 1 "1"
    let fOk := factor ≠ "" ∧ noEsUno (parseNumero factor) = true
    let rOk := rendimiento ≠ "" ∧ noEsUno (parseNumero rendimiento) = true
    some (if rOk then hijo ++ " x " ++ factor ++ " (r: " ++ rendimiento ++ ")"
          else if fOk then hijo ++ " x " ++ factor
          else hijo)

/-- The child lines a `D` or `Y` record contributes: one rendered line per
field after the parent code that has at least one sub-field. -/
def lineasDe (campos : List String) : List String :=
  (campos.drop 2).filterMap (fun campo => renderLinea (todosSubcampos campo))

/-- Model of `_parse_registro_d`: replace the parent's decomposition with the
record's rendered child lines. -/
def parseRegistroD (campos : List String) (p : PresupuestoBC3) : PresupuestoBC3 :=
  if campos.length < 3 then p
  else if codigoLimpio campos 1 = "" then p
  else { p with descomposiciones := dictInsert p.descomposiciones (codigoLimpio campos 1) (lineasDe campos) }

/-- Model of `_parse_registro_y`: append the record's rendered child lines to
the parent's existing decomposition (creating it when absent). -/
def parseRegistroY (campos : List String) (p : PresupuestoBC3) : PresupuestoBC3 :=
  if campos.length < 3 then p
  else if codigoLimpio campos 1 = "" then p
  else { p with descomposiciones := dictInsert p.descomposiciones (codigoLimpio campos 1) ((dictLookup p.descomposiciones (codigoLimpio campos 1)).getD [] ++ lineasDe campos) }

/-- The measurement entry stored for a value field: its non-blank sub-fields,
else the stripped raw text as a singleton, else the empty list. -/
def medicionDe (valorRaw : String) : List String :=
  let sub := todosSubcampos valorRaw
  if sub ≠ [] then sub
  else if pyStripS valorRaw ≠ "" then [pyStripS valorRaw] else []

/-- Model of `_parse_registro_m`: store the measurement entry under the
cleaned code, replacing any earlier entry. -/
def parseRegistroM (campos : List String) (p : PresupuestoBC3) : PresupuestoBC3 :=
  if campos.length < 3 then p
  else if codigoLimpio campos 1 = "" then p
  else { p with mediciones := dictInsert p.mediciones (codigoLimpio campos 1) (medicionDe (campos.getD 2 "")) }

/-- Model of `_parse_registro_t`: store the stripped text under the cleaned
code. -/
def parseRegistroT (campos : List String) (p : PresupuestoBC3) : PresupuestoBC3 :=
  if 3 ≤ campos.length then
    if codigoLimpio campos 1 = "" then p
    else { p with textos := dictInsert p.textos (codigoLimpio campos 1) (pyStripS (campos.getD 2 "")) }
  else p

/-- Model of `_guardar_otro`: append `campos[1:]` to the passthrough bucket
of the given tag. -/
def guardarOtro (tipo : String) (campos : List String) (p : PresupuestoBC3) : PresupuestoBC3 :=
  let cubo := ((dictLookup p.otros_registros tipo).getD []) ++ [campos.drop 1]
  { p with otros_registros := dictInsert p.otros_registros tipo cubo }

/-- The record-type tag used for dispatch: `campos[0].strip().upper()`
(empty for an empty field list). -/
def tagOf (campos : List String) : String :=
  match campos with
  | [] => ""
  | c :: _ => pyUpperS (pyStripS c)

/-- Model of the dispatch inside `_parse_content`: route the record to its
decoder by tag; `R` and `F/G/L/O/X/Z` go to the passthrough; any other tag is
dropped. -/
def procesarRegistro (campos : List String) (p : PresupuestoBC3) : PresupuestoBC3 :=
  match campos with
  | [] => p
  | _ :: _ =>
    let tipo := tagOf campos
    if tipo = "V" then parseRegistroV campos p
    else if tipo = "K" then parseRegistroK campos p
    else if tipo = "C" then parseRegistroC campos p
    else if tipo = "D" then parseRegistroD campos p
    else if tipo = "Y" then parseRegistroY campos p
    else if tipo = "M" then parseRegistroM campos p
    else if tipo = "T" then parseRegistroT campos p
    else if tipo = "R" then guardarOtro tipo campos p
    else if tipo = "F" ∨ tipo = "G" ∨ tipo = "L" ∨ tipo = "O" ∨ tipo = "X" ∨ tipo = "Z" then
      guardarOtro tipo campos p
    else p

/-- Left-to-right processing of a list of tokenized records. -/
def procesarRegistros (regs : List (List String)) (p : PresupuestoBC3) : PresupuestoBC3 :=
  regs.foldl (fun acc campos => procesarRegistro campos acc) p

/-! ## Tokenizer (`_parse_content`, `_split_campos`) -/

/-- Model of `_split_campos`: split on `|` and strip every field. -/
def splitCampos (registro : String) : List String :=
  (pySplitOn registro "|").map pyStripS

/-- Line-ending normalization of `_parse_content`. -/
def normalizaFinLinea (s : String) : String :=
  pyReplace (pyReplace s "\r\n" "\n") "\r" "\n"

/-- Drop the EOF marker (ASCII 26) and everything after it. -/
def cortaEOF (s : String) : String :=
  (pySplitOn s "\x1a").headD s

/-- The tokenized records of a BC3 text: split on `~`, strip, drop blanks,
split each into fields. -/
def registrosDe (contenido : String) : List (List String) :=
  (pySplitOn (cortaEOF (normalizaFinLinea contenido)) "~").filterMap (fun r =>
    let r2 := pyStripS r
    if r2 = "" then none else some (splitCampos r2))

/-- Model of `_parse_content`: tokenize and process every record in order. -/
def parseContent (contenido : String) (p : PresupuestoBC3) : PresupuestoBC3 :=
  procesarRegistros (registrosDe contenido) p

/-! ## Flattening (`get_partidas_con_detalles`) -/

/-- One component of the `orden_codigo` sort key: a Python `int` for all-digit
components, a Python `str` otherwise. -/
inductive PyComp where
  | int : Nat → PyComp
  | str : String → PyComp
deriving DecidableEq, Repr

/-- Model of `orden_codigo`: strip `#` markers, split on `.`/`#`, keep the
first 8 components, turn all-digit components into integers and the rest into
strings (the empty component into `"0"`). -/
def ordenCodigo (c : String) : List PyComp :=
  let base := pyReplace (pyReplace c "##" "") "#" ""
  let partes := (splitPuntoAlmohadilla base.data).map String.mk
  (partes.take 8).map (fun p =>
    if esDigitos p then PyComp.int (digitsVal p.data)
    else PyComp.str (if p = "" then "0" else p))

/-- Python `==` on key components: mixed `int`/`str` compare unequal without
raising. -/
def pyCompEq : PyComp → PyComp → Bool
  | .int a, .int b => a == b
  | .str a, .str b => a == b
  | _, _ => false

/-- Python `<` on key components: `none` models the `TypeError` raised when an
`int` meets a `str`. -/
def pyCompLt : PyComp → PyComp → Option Bool
  | .int a, .int b => some (decide (a < b))
  | .str a, .str b => some (strLt a b)
  | _, _ => none

/-- Python `<` on key tuples: find the first position whose components are
not `==`-equal and compare there (`none` when that comparison raises); a
strict prefix is smaller. -/
def pyTupleLt : List PyComp → List PyComp → Option Bool
  | [], [] => some false
  | [], _ :: _ => some true
  | _ :: _, [] => some false
  | a :: as, b :: bs => if pyCompEq a b then pyTupleLt as bs else pyCompLt a b

/-- Total less-or-equal used to model `sorted` on codes whose keys are
pairwise comparable (the fallback value for an incomparable pair is never
used: `getPartidas` answers `none` in that case). -/
def codeLe (a b : String) : Bool :=
  match pyTupleLt (ordenCodigo b) (ordenCodigo a) with
  | some r => !r
  | none => true

/-- Insert into a sorted list (stable). -/
def insertLe (le : String → String → Bool) (x : String) : List String → List String
  | [] => [x]
  | y :: ys => if le x y then x :: y :: ys else y :: insertLe le x ys

/-- Insertion sort, the model of `sorted` restricted to comparable keys. -/
def sortByLe (le : String → String → Bool) : List String → List String
  | [] => []
  | x :: xs => insertLe le x (sortByLe le xs)

/-- Model of `_extraer_cantidad_medicion`: a single entry verbatim, else each
entry parsed-or-passed-through joined with `" x "`. -/
def extraerCantidad (med : List String) : String :=
  match med with
  | [] => ""
  | [x] => x
  | _ =>
    String.intercalate " x "
      (med.map (fun m => match parseNumero m with
        | some n => floatToStr n
        | none => m))

/-- A flattened line item (one `partida` dictionary). -/
structure Partida where
  codigo : String
  descripcion : String
  unidad : String
  cantidad : String
  precio_unitario : String
  importe : String
  texto_largo : String
  descomposicion : String
deriving DecidableEq, Repr

/-- The all-empty line item the loop starts from. -/
def partidaVacia : Partida := ⟨"", "", "", "", "", "", "", ""⟩

/-- The line item synthesized for one code, exactly as the loop body of
`get_partidas_con_detalles` builds it. -/
def mkPartida (p : PresupuestoBC3) (codigo : String) : Partida :=
  let conc := dictLookup p.conceptos codigo
  let unidad := match conc with | some campos => campos.getD 0 "" | none => ""
  let descripcion := match conc with | some campos => campos.getD 1 "" | none => ""
  let precio := match conc with | some campos => campos.getD 2 "" | none => ""
  let texto := (dictLookup p.textos codigo).getD ""
  let cantidad := match dictLookup p.mediciones codigo with
    | some med => extraerCantidad med
    | none => ""
  let descomposicion := match dictLookup p.descomposiciones codigo with
    | some ls => String.intercalate " | " ls
    | none => ""
  let importe := match parseNumero cantidad, parseNumero precio with
    | some c, some pr => formatImporte (decMul c pr)
    | _, _ => ""
  { codigo := codigo, descripcion := descripcion, unidad := unidad, cantidad := cantidad,
    precio_unitario := precio, importe := importe, texto_largo := texto,
    descomposicion := descomposicion }

/-- The union of concept and measurement codes (Python
`set(conceptos) | set(mediciones)`; set iteration order is arbitrary, so any
duplicate-free enumeration is a faithful model). -/
def codigosPresupuesto (p : PresupuestoBC3) : List String :=
  (dictKeys p.conceptos ++ dictKeys p.mediciones).dedup

/-- Are the sort keys of the budget's codes pairwise comparable?  When they
are not, Python's `sorted` raises `TypeError` on some comparison. -/
def clavesComparables (p : PresupuestoBC3) : Bool :=
  (codigosPresupuesto p).all (fun a => (codigosPresupuesto p).all (fun b =>
    (pyTupleLt (ordenCodigo a) (ordenCodigo b)).isSome))

/-- Model of `get_partidas_con_detalles`.  `none` models the `TypeError`
`sorted` raises when two sort keys are incomparable (an `int` component
meeting a `str` component); otherwise the line items in sorted order. -/
def getPartidas (p : PresupuestoBC3) : Option (List Partida) :=
  if clavesComparables p then
    some ((sortByLe codeLe (codigosPresupuesto p)).map (mkPartida p))
  else none

/-! ## Claim-side definitions (stated from the specification's words, for
comparison with the source-translated definitions above) -/

/-- The `version` mapping as the specification words it: the record's up to
10 fields after the tag zipped onto the fixed key list, missing trailing
fields defaulting to the empty string. -/
def versionSpec (campos : List String) : List (String × String) :=
  versionKeys.zip ((campos.drop 1 ++ List.replicate 10 "").take 10)

/-- The decomposition child line as the specification words it:
`"<child> x <factor> (r: <yield>)"` when the yield differs from 1,
else `"<child> x <factor>"` when the factor differs from 1, else the bare
child code — "differs from 1" read through the numeric normalizer, an
unparseable value counting as different from 1 (Python's `None != 1.0`). -/
def renderSpec (hijo factor rendimiento : String) : String :=
  if noEsUno (parseNumero rendimiento) then
    hijo ++ " x " ++ factor ++ " (r: " ++ rendimiento ++ ")"
  else if noEsUno (parseNumero factor) then
    hijo ++ " x " ++ factor
  else hijo

/-! ## Concrete inputs used by witnesses and counterexamples -/

/-- A file whose only record has the unknown tag `Q`. -/
def contenidoQ : String := "~Q|foo|bar~"

/-- The four codes of the hierarchical-ordering example: a concept record for
each of `02.1`, `1.10`, `1.2` and `##`. -/
def contenidoOrden : String := "~C|02.1|u|a|1|~C|1.10|u|a|1|~C|1.2|u|a|1|~C|##|u|a|1|~"

/-- The budget parsed from `contenidoOrden`. -/
def presupuestoOrden : PresupuestoBC3 := parseContent contenidoOrden presupuestoVacio

/-- A one-item file: concept `01` (unit price `2,50`) with measurement `10`. -/
def contenidoUno : String := "~C|01|ud|Partida uno|2,50||~M|01|10|~"

/-- The budget parsed from `contenidoUno`. -/
def presupuestoUno : PresupuestoBC3 := parseContent contenidoUno presupuestoVacio

/-- The flattened line items of `presupuestoUno`. -/
def partidasUno : List Partida := (getPartidas presupuestoUno).getD []

/-- A file exercising all four maps: a concept-only code `01`, a
measurement-only code `02`, a text-only code `03` and a decomposition-only
code `04`. -/
def contenidoMapas : String := "~C|01|u|a|1|~M|02|5|~T|03|texto|~D|04|x\\2|~"

/-- The budget parsed from `contenidoMapas`. -/
def presupuestoMapas : PresupuestoBC3 := parseContent contenidoMapas presupuestoVacio

/-- The flattened line items of `presupuestoMapas`. -/
def partidasMapas : List Partida := (getPartidas presupuestoMapas).getD []

/-! ## Helper lemmas -/

theorem dictLookup_insert_self {α : Type} (d : List (String × α)) (k : String) (v : α) :
    dictLookup (dictInsert d k v) k = some v := by
  induction d with
  | nil => simp [dictInsert, dictLookup]
  | cons e t ih =>
    by_cases he : e.1 = k
    · simp [dictInsert, he, dictLookup]
    · simp [dictInsert, he, dictLookup, ih]

theorem zip_take_self {α β : Type} (ks : List α) (vs : List β) :
    ks.zip vs = ks.zip (vs.take ks.length) := by
  induction ks generalizing vs with
  | nil => simp
  | cons k ks ih =>
    cases vs with
    | nil => simp
    | cons v vs => simpa using ih vs

theorem take_append_left {α : Type} (n : Nat) (l l2 : List α) (h : n ≤ l.length) :
    (l ++ l2).take n = l.take n := by
  induction l generalizing n with
  | nil =>
    have hn : n = 0 := by simpa using h
    subst hn
    simp
  | cons a t ih =>
    cases n with
    | zero => simp
    | succ m =>
      simp only [List.cons_append, List.take_succ_cons]
      rw [ih]
      simpa using h

theorem parseRegistroV_version (campos : List String) (p : PresupuestoBC3) :
    (parseRegistroV campos p).version = versionSpec campos := by
  show versionKeys.zip _ = versionSpec campos
  unfold versionSpec
  split
  case isTrue h =>
    have hlen : 10 ≤ (campos.drop 1).length := by
      simp only [List.length_drop]
      omega
    rw [take_append_left 10 (campos.drop 1) (List.replicate 10 "") hlen]
  case isFalse h =>
    rw [zip_take_self versionKeys (campos.drop 1 ++ List.replicate 10 "")]
    simp [versionKeys]

theorem parseRegistroK_version (campos : List String) (p : PresupuestoBC3) :
    (parseRegistroK campos p).version = p.version := by
  unfold parseRegistroK
  split_ifs <;> rfl

theorem parseRegistroC_version (campos : List String) (p : PresupuestoBC3) :
    (parseRegistroC campos p).version = p.version := by
  unfold parseRegistroC
  split_ifs <;> rfl

theorem parseRegistroD_version (campos : List String) (p : PresupuestoBC3) :
    (parseRegistroD campos p).version = p.version := by
  unfold parseRegistroD
  split_ifs <;> rfl

theorem parseRegistroY_version (campos : List String) (p : PresupuestoBC3) :
    (parseRegistroY campos p).version = p.version := by
  unfold parseRegistroY
  split_ifs <;> rfl

theorem parseRegistroM_version (campos : List String) (p : PresupuestoBC3) :
    (parseRegistroM campos p).version = p.version := by
  unfold parseRegistroM
  split_ifs <;> rfl

theorem parseRegistroT_version (campos : List String) (p : PresupuestoBC3) :
    (parseRegistroT campos p).version = p.version := by
  unfold parseRegistroT
  split_ifs <;> rfl

theorem guardarOtro_version (tipo : String) (campos : List String) (p : PresupuestoBC3) :
    (guardarOtro tipo campos p).version = p.version := rfl

theorem procesarRegistro_eq_V (campos : List String) (p : PresupuestoBC3)
    (h : tagOf campos = "V") : procesarRegistro campos p = parseRegistroV campos p := by
  cases campos with
  | nil => simp [tagOf] at h
  | cons c rest =>
    unfold procesarRegistro
    rw [if_pos h]

theorem procesarRegistro_version_of_ne (campos : List String) (p : PresupuestoBC3)
    (h : tagOf campos ≠ "V") : (procesarRegistro campos p).version = p.version := by
  cases campos with
  | nil => rfl
  | cons c rest =>
    unfold procesarRegistro
    rw [if_neg h]
    split_ifs
    · exact parseRegistroK_version _ _
    · exact parseRegistroC_version _ _
    · exact parseRegistroD_version _ _
    · exact parseRegistroY_version _ _
    · exact parseRegistroM_version _ _
    · exact parseRegistroT_version _ _
    · exact guardarOtro_version _ _ _
    · exact guardarOtro_version _ _ _
    · rfl

theorem procesarRegistros_version_of_no_V (regs : List (List String)) (p : PresupuestoBC3)
    (h : ∀ r ∈ regs, tagOf r ≠ "V") :
    (procesarRegistros regs p).version = p.version := by
  induction regs generalizing p with
  | nil => rfl
  | cons r t ih =>
    have hr : tagOf r ≠ "V" := h r (List.mem_cons_self r t)
    have ht : ∀ x ∈ t, tagOf x ≠ "V" := fun x hx => h x (List.mem_cons_of_mem r hx)
    show (procesarRegistros t (procesarRegistro r p)).version = p.version
    rw [ih (procesarRegistro r p) ht, procesarRegistro_version_of_ne r p hr]

theorem todosSubcampos_ne_vacia (s x : String) (hx : x ∈ todosSubcampos s) : x ≠ "" := by
  unfold todosSubcampos at hx
  split at hx
  · simp at hx
  · have h2 := (List.mem_filter.mp hx).2
    simpa using h2

theorem insertLe_perm (le : String → String → Bool) (x : String) (l : List String) :
    List.Perm (insertLe le x l) (x :: l) := by
  induction l with
  | nil => exact List.Perm.refl _
  | cons y ys ih =>
    unfold insertLe
    split
    · exact List.Perm.refl _
    · exact (List.Perm.cons y ih).trans (List.Perm.swap x y ys)

theorem sortByLe_perm (le : String → String → Bool) (l : List String) :
    List.Perm (sortByLe le l) l := by
  induction l with
  | nil => exact List.Perm.refl _
  | cons x xs ih =>
    exact (insertLe_perm le x (sortByLe le xs)).trans (List.Perm.cons x ih)

theorem mkPartida_codigo (p : PresupuestoBC3) (c : String) :
    (mkPartida p c).codigo = c := rfl

theorem formatImporte_ne_vacio (d : Dec) : formatImporte d ≠ "" := by
  intro h
  have hlen := congrArg String.length h
  simp only [formatImporte, String.length_append] at hlen
  have h1 : ("," : String).length = 1 := rfl
  have h0 : ("" : String).length = 0 := rfl
  rw [h1, h0] at hlen
  omega

theorem renderLinea_eq_renderSpec (hijo : String) (rest : List String)
    (hf : rest.getD 0 "1" ≠ "") (hr : rest.getD 1 "1" ≠ "") :
    renderLinea (hijo :: rest) = some (renderSpec hijo (rest.getD 0 "1") (rest.getD 1 "1")) := by
  simp only [renderLinea, renderSpec]
  split_ifs <;> first | rfl | tauto

theorem parseRegistroD_desc (campos : List String) (p : PresupuestoBC3)
    (h3 : ¬ campos.length < 3) (hc : codigoLimpio campos 1 ≠ "") :
    (parseRegistroD campos p).descomposiciones
      = dictInsert p.descomposiciones (codigoLimpio campos 1) (lineasDe campos) := by
  unfold parseRegistroD
  rw [if_neg h3, if_neg hc]

theorem parseRegistroY_desc (campos : List String) (p : PresupuestoBC3)
    (h3 : ¬ campos.length < 3) (hc : codigoLimpio campos 1 ≠ "") :
    (parseRegistroY campos p).descomposiciones
      = dictInsert p.descomposiciones (codigoLimpio campos 1)
          ((dictLookup p.descomposiciones (codigoLimpio campos 1)).getD [] ++ lineasDe campos) := by
  unfold parseRegistroY
  rw [if_neg h3, if_neg hc]

theorem parseRegistroM_med (campos : List String) (p : PresupuestoBC3)
    (h3 : ¬ campos.length < 3) (hc : codigoLimpio campos 1 ≠ "") :
    (parseRegistroM campos p).mediciones
      = dictInsert p.mediciones (codigoLimpio campos 1) (medicionDe (campos.getD 2 "")) := by
  unfold parseRegistroM
  rw [if_neg h3, if_neg hc]

/-! ## Claim theorems -/

/-- **C4.** The numeric normalizer strips internal spaces, removes every `.`,
replaces `,` with `.`, and parses the result as a float value; blank or
unparseable input yields `none` (absent), never zero.  Concretely,
`"1.234,56"` parses to the value `1234.56`, `"12,5"` to `12.5`,
`"1 234,5"` to `1234.5`, while `""` and `"abc"` yield `none`, and every
all-whitespace input yields `none`. -/
theorem c4_parse_numero :
    parseNumero "1.234,56" = some ⟨123456, 2⟩ ∧ decToRat ⟨123456, 2⟩ = 1234.56
      ∧ parseNumero "12,5" = some ⟨125, 1⟩ ∧ decToRat ⟨125, 1⟩ = 12.5
      ∧ parseNumero "1 234,5" = some ⟨12345, 1⟩
      ∧ parseNumero "" = none ∧ parseNumero "abc" = none
      ∧ ∀ s : String, pyStripS s = "" → parseNumero s = none := by
  refine ⟨by decide, by norm_num [decToRat], by decide, by norm_num [decToRat], by decide,
    by decide, by decide, ?_⟩
  intro s hs
  unfold parseNumero
  rw [if_pos hs]

/-- Witness for C4: the all-blank string `"   "` strips to `""` and is
normalized to the absent value. -/
theorem c4_parse_numero_witness :
    pyStripS "   " = "" ∧ parseNumero "   " = none :=
  ⟨by decide, c4_parse_numero.2.2.2.2.2.2.2 "   " (by decide)⟩

/-- **C8.** Records failing their minimum field count — a `C` record with
fewer than 4 fields, a `D`, `Y`, `M` or `T` record with fewer than 3 — are
dropped silently: the decoder returns, without raising, a budget every field
of which is exactly the one before the record. -/
theorem c8_minimo_campos (p : PresupuestoBC3) (campos : List String) :
    (campos.length < 4 → parseRegistroC campos p = p)
      ∧ (campos.length < 3 → parseRegistroD campos p = p)
      ∧ (campos.length < 3 → parseRegistroY campos p = p)
      ∧ (campos.length < 3 → parseRegistroM campos p = p)
      ∧ (campos.length < 3 → parseRegistroT campos p = p) := by
  refine ⟨fun h => ?_, fun h => ?_, fun h => ?_, fun h => ?_, fun h => ?_⟩
  · unfold parseRegistroC
    rw [if_pos h]
  · unfold parseRegistroD
    rw [if_pos h]
  · unfold parseRegistroY
    rw [if_pos h]
  · unfold parseRegistroM
    rw [if_pos h]
  · unfold parseRegistroT
    rw [if_neg (by omega)]

/-- Witness for C8: concrete under-length records of each kind leave the
empty budget untouched. -/
theorem c8_minimo_campos_witness :
    parseRegistroC ["C", "01", "u"] presupuestoVacio = presupuestoVacio
      ∧ parseRegistroD ["D", "01"] presupuestoVacio = presupuestoVacio
      ∧ parseRegistroY ["Y", "01"] presupuestoVacio = presupuestoVacio
      ∧ parseRegistroM ["M", "01"] presupuestoVacio = presupuestoVacio
      ∧ parseRegistroT ["T", "01"] presupuestoVacio = presupuestoVacio :=
  ⟨(c8_minimo_campos presupuestoVacio ["C", "01", "u"]).1 (by decide),
   (c8_minimo_campos presupuestoVacio ["D", "01"]).2.1 (by decide),
   (c8_minimo_campos presupuestoVacio ["Y", "01"]).2.2.1 (by decide),
   (c8_minimo_campos presupuestoVacio ["M", "01"]).2.2.2.1 (by decide),
   (c8_minimo_campos presupuestoVacio ["T", "01"]).2.2.2.2 (by decide)⟩

/-- **C10.** A later `M` record for a code that already has a measurement
entry replaces that entry entirely — the earlier record's sub-fields are
discarded, never merged — and an `M` record whose value field strips to
blank (hence has no sub-fields) resets the entry to the empty list. -/
theorem c10_m_reemplaza (p : PresupuestoBC3) (c v1 v2 : String)
    (hc : pyStripS c ≠ "") :
    dictLookup (parseRegistroM ["M", c, v2]
        (parseRegistroM ["M", c, v1] p)).mediciones (pyStripS c)
      = some (medicionDe v2)
      ∧ (pyStripS v2 = "" → medicionDe v2 = []) := by
  constructor
  · have e2 : codigoLimpio ["M", c, v2] 1 = pyStripS c := rfl
    have g2 : (["M", c, v2] : List String).getD 2 "" = v2 := rfl
    rw [parseRegistroM_med ["M", c, v2] _ (by simp) (by rw [e2]; exact hc), e2, g2]
    exact dictLookup_insert_self _ _ _
  · intro hv
    simp [medicionDe, todosSubcampos, hv]

/-- Witness for C10: after `~M|01|5~` then `~M|01|~` (blank value), the
entry of `01` is the empty list — the earlier `["5"]` is gone. -/
theorem c10_m_reemplaza_witness :
    dictLookup (parseRegistroM ["M", "01", ""]
        (parseRegistroM ["M", "01", "5"] presupuestoVacio)).mediciones "01" = some [] := by
  have h := (c10_m_reemplaza presupuestoVacio "01" "5" "" (by decide)).1
  have e1 : pyStripS "01" = "01" := rfl
  have e2 : medicionDe "" = ([] : List String) := rfl
  rw [e1, e2] at h
  exact h

/-- **C1 counterexample.** The record `~Q|foo|bar~` is NOT recoverable from
the passthrough bucket: after parsing, `otros_registros` has no entry under
the tag `"Q"` — indeed the whole budget is unchanged — contradicting the
claim that the fields are stored there. -/
theorem c1_contraejemplo_q :
    dictLookup (parseContent contenidoQ presupuestoVacio).otros_registros "Q" = none
      ∧ parseContent contenidoQ presupuestoVacio = presupuestoVacio := by
  constructor
  · decide
  · decide

/-- **C1 (amended).** A record whose uppercased tag is none of the fourteen
recognized tags (V, K, C, D, Y, M, T, R, F, G, L, O, X, Z) does not raise
and leaves the entire budget — `conceptos`, `mediciones`,
`descomposiciones` and every other field — exactly unchanged; it is NOT
stored in the `otros_registros` passthrough (that bucket receives only the
tags R, F, G, L, O, X, Z), so the record is dropped without trace. -/
theorem c1_tag_desconocido (p : PresupuestoBC3) (campos : List String)
    (h : tagOf campos ∉
      ["V", "K", "C", "D", "Y", "M", "T", "R", "F", "G", "L", "O", "X", "Z"]) :
    procesarRegistro campos p = p := by
  cases campos with
  | nil => rfl
  | cons c rest =>
    simp only [List.mem_cons, List.not_mem_nil, or_false, not_or] at h
    obtain ⟨h1, h2, h3, h4, h5, h6, h7, h8, h9, h10, h11, h12, h13, h14⟩ := h
    unfold procesarRegistro
    rw [if_neg h1, if_neg h2, if_neg h3, if_neg h4, if_neg h5, if_neg h6, if_neg h7,
      if_neg h8, if_neg (by tauto)]

/-- Witness for C1 (amended): the `Q` record of the counterexample leaves
the empty budget untouched. -/
theorem c1_tag_desconocido_witness :
    procesarRegistro ["Q", "foo", "bar"] presupuestoVacio = presupuestoVacio :=
  c1_tag_desconocido presupuestoVacio ["Q", "foo", "bar"] (by decide)

/-- **C2 (code bug).** On the codes `{"02.1", "1.10", "1.2", "##"}` the
sort key of `"##"` is the one-element *string* tuple `("0",)` — the empty
component becomes the string `"0"`, not the integer `0` — while the other
three keys are integer tuples; Python 3's tuple comparison between the key
of `"##"` and any of the others raises `TypeError` (`'<' not supported
between instances of 'str' and 'int'`), modelled here by `pyTupleLt`
returning `none` in both directions, so `sorted`, and with it the
flattening step, cannot return the order the claim states (the model's
`getPartidas` yields `none`). -/
theorem c2_claves_incomparables :
    ordenCodigo "##" = [PyComp.str "0"]
      ∧ ordenCodigo "1.2" = [PyComp.int 1, PyComp.int 2]
      ∧ ordenCodigo "1.10" = [PyComp.int 1, PyComp.int 10]
      ∧ ordenCodigo "02.1" = [PyComp.int 2, PyComp.int 1]
      ∧ pyTupleLt (ordenCodigo "##") (ordenCodigo "1.2") = none
      ∧ pyTupleLt (ordenCodigo "1.2") (ordenCodigo "##") = none
      ∧ pyTupleLt (ordenCodigo "##") (ordenCodigo "1.10") = none
      ∧ pyTupleLt (ordenCodigo "##") (ordenCodigo "02.1") = none
      ∧ clavesComparables presupuestoOrden = false
      ∧ getPartidas presupuestoOrden = none := by
  refine ⟨?_, ?_, ?_, ?_, ?_, ?_, ?_, ?_, ?_, ?_⟩ <;> decide

/-- **C7.** After processing any record sequence in which the field list `v`
is the last `V` record, `version` is exactly the claim's zip (`versionSpec`):
the up-to-10 fields of `v` after the tag zipped onto the fixed key list
`versionKeys`, missing trailing fields defaulting to the empty string; any
`V` record processed earlier is overwritten entirely. -/
theorem c7_version_zip (p : PresupuestoBC3) (pre post : List (List String))
    (v : List String) (hv : tagOf v = "V")
    (hpost : ∀ r ∈ post, tagOf r ≠ "V") :
    (procesarRegistros (pre ++ v :: post) p).version = versionSpec v := by
  unfold procesarRegistros
  rw [List.foldl_append]
  show (procesarRegistros post
    (procesarRegistro v (procesarRegistros pre p))).version = versionSpec v
  rw [procesarRegistros_version_of_no_V post _ hpost,
    procesarRegistro_eq_V v _ hv]
  exact parseRegistroV_version v _

/-- Witness for C7: a short `V` record between two other records produces
the fully padded ten-key mapping, overwriting the earlier `V` record. -/
theorem c7_version_zip_witness :
    (procesarRegistros
        [["V", "OLD", "X"], ["V", "ACME", "FIEBDC-3/2020"], ["M", "01", "5"]]
        presupuestoVacio).version = versionSpec ["V", "ACME", "FIEBDC-3/2020"]
      ∧ versionSpec ["V", "ACME", "FIEBDC-3/2020"] =
        [("propiedad", "ACME"), ("version_formato", "FIEBDC-3/2020"),
         ("programa_emision", ""), ("cabecera", ""), ("charset", ""),
         ("comentario", ""), ("tipo_info", ""), ("num_certificacion", ""),
         ("fecha_certificacion", ""), ("url_base", "")] :=
  ⟨c7_version_zip presupuestoVacio [["V", "OLD", "X"]] [["M", "01", "5"]]
     ["V", "ACME", "FIEBDC-3/2020"] (by decide) (by decide),
   by decide⟩

/-- **C5.** A `D` record replaces the parent's decomposition wholesale with
its rendered child lines, and a subsequent `Y` record for the same parent
appends its rendered child lines: the stored sequence is the concatenation
in input order, and its length is the sum of the two records' contributed
line counts. -/
theorem c5_d_luego_y (p : PresupuestoBC3) (cD cY : List String)
    (hD : ¬ cD.length < 3) (hY : ¬ cY.length < 3)
    (hpar : codigoLimpio cY 1 = codigoLimpio cD 1)
    (hne : codigoLimpio cD 1 ≠ "") :
    dictLookup (parseRegistroY cY (parseRegistroD cD p)).descomposiciones
        (codigoLimpio cD 1) = some (lineasDe cD ++ lineasDe cY)
      ∧ (lineasDe cD ++ lineasDe cY).length
        = (lineasDe cD).length + (lineasDe cY).length := by
  refine ⟨?_, List.length_append _ _⟩
  have hy := parseRegistroY_desc cY (parseRegistroD cD p) hY (by rw [hpar]; exact hne)
  have hd := parseRegistroD_desc cD p hD hne
  rw [hy, hpar, hd, dictLookup_insert_self, dictLookup_insert_self]
  rfl

/-- Witness for C5: `~D|P|H1|H2\2~` then `~Y|P|H3\4~` store
`["H1", "H2 x 2", "H3 x 4"]` under `P` — two lines from the `D` record
followed by one from the `Y` record. -/
theorem c5_d_luego_y_witness :
    dictLookup (parseRegistroY ["Y", "P", "H3\\4"]
        (parseRegistroD ["D", "P", "H1", "H2\\2"] presupuestoVacio)).descomposiciones "P"
      = some ["H1", "H2 x 2", "H3 x 4"] := by
  have h := (c5_d_luego_y presupuestoVacio ["D", "P", "H1", "H2\\2"] ["Y", "P", "H3\\4"]
    (by decide) (by decide) (by decide) (by decide)).1
  have e1 : codigoLimpio ["D", "P", "H1", "H2\\2"] 1 = "P" := rfl
  have e2 : lineasDe ["D", "P", "H1", "H2\\2"] ++ lineasDe ["Y", "P", "H3\\4"]
      = ["H1", "H2 x 2", "H3 x 4"] := by decide
  rw [e1, e2] at h
  exact h

/-- **C6.** For a child field of a `D` or `Y` record whose sub-field list is
`hijo :: rest` — sub-field 0 the child code, sub-field 1 the factor
(defaulting to `"1"` when missing), sub-field 2 the yield (defaulting to
`"1"`) — the stored line is exactly the claim's rendering `renderSpec`:
`"<child> x <factor> (r: <yield>)"` when the yield differs from 1, else
`"<child> x <factor>"` when the factor differs from 1, else the bare child
code ("differs from 1" read through the numeric normalizer). -/
theorem c6_renderizado (p : PresupuestoBC3) (padre campo hijo : String)
    (rest : List String) (hs : todosSubcampos campo = hijo :: rest)
    (hp : pyStripS padre ≠ "") :
    dictLookup (parseRegistroD ["D", padre, campo] p).descomposiciones (pyStripS padre)
        = some [renderSpec hijo (rest.getD 0 "1") (rest.getD 1 "1")]
      ∧ (dictLookup p.descomposiciones (pyStripS padre) = none →
          dictLookup (parseRegistroY ["Y", padre, campo] p).descomposiciones (pyStripS padre)
            = some [renderSpec hijo (rest.getD 0 "1") (rest.getD 1 "1")]) := by
  have hfac : rest.getD 0 "1" ≠ "" := by
    rcases rest with - | ⟨f, t⟩
    · simp
    · have hm : f ∈ todosSubcampos campo := by
        rw [hs]
        exact List.mem_cons_of_mem _ (List.mem_cons_self f t)
      exact todosSubcampos_ne_vacia campo f hm
  have hrend : rest.getD 1 "1" ≠ "" := by
    rcases rest with - | ⟨f, - | ⟨r, t⟩⟩
    · simp
    · simp
    · have hm : r ∈ todosSubcampos campo := by
        rw [hs]
        exact List.mem_cons_of_mem _ (List.mem_cons_of_mem _ (List.mem_cons_self r t))
      exact todosSubcampos_ne_vacia campo r hm
  have hlin : ∀ t : String, lineasDe [t, padre, campo]
      = [renderSpec hijo (rest.getD 0 "1") (rest.getD 1 "1")] := by
    intro t
    unfold lineasDe
    show List.filterMap _ [campo] = _
    rw [List.filterMap_cons]
    rw [hs, renderLinea_eq_renderSpec hijo rest hfac hrend]
    rfl
  have ecl : ∀ t : String, codigoLimpio [t, padre, campo] 1 = pyStripS padre :=
    fun t => rfl
  constructor
  · rw [parseRegistroD_desc ["D", padre, campo] p (by simp) (by rw [ecl]; exact hp),
      ecl, hlin, dictLookup_insert_self]
  · intro hnone
    rw [parseRegistroY_desc ["Y", padre, campo] p (by simp) (by rw [ecl]; exact hp),
      ecl, hlin, hnone, dictLookup_insert_self]
    rfl

/-- Witness for C6: the field `CH\2\3` of a `D` (and of a `Y`) record for
parent `P` stores the single line `"CH x 2 (r: 3)"`. -/
theorem c6_renderizado_witness :
    dictLookup (parseRegistroD ["D", "P", "CH\\2\\3"] presupuestoVacio).descomposiciones "P"
        = some ["CH x 2 (r: 3)"]
      ∧ dictLookup (parseRegistroY ["Y", "P", "CH\\2\\3"] presupuestoVacio).descomposiciones "P"
        = some ["CH x 2 (r: 3)"] := by
  have h := c6_renderizado presupuestoVacio "P" "CH\\2\\3" "CH" ["2", "3"]
    (by decide) (by decide)
  have e : pyStripS "P" = "P" := rfl
  have er : renderSpec "CH" ((["2", "3"] : List String).getD 0 "1")
      ((["2", "3"] : List String).getD 1 "1") = "CH x 2 (r: 3)" := by decide
  refine ⟨?_, ?_⟩
  · have h1 := h.1
    rw [e, er] at h1
    exact h1
  · have h2 := h.2 (by rw [e]; rfl)
    rw [e, er] at h2
    exact h2

/-- **C3.** For every line item of a successful flattening: when both the
quantity string and the unit-price string parse through the numeric
normalizer, the amount is exactly their product formatted with two decimal
digits, comma decimal separator and dot thousands separator
(`formatImporte`); when either fails to parse, the amount is the empty
string; and conversely an empty amount can only come from a failed parse —
never `"0,00"`. -/
theorem c3_importe (p : PresupuestoBC3) (salida : List Partida) (pa : Partida)
    (hp : getPartidas p = some salida) (hmem : pa ∈ salida) :
    (∀ c pr : Dec, parseNumero pa.cantidad = some c →
        parseNumero pa.precio_unitario = some pr →
        pa.importe = formatImporte (decMul c pr))
      ∧ ((parseNumero pa.cantidad = none ∨ parseNumero pa.precio_unitario = none) →
          pa.importe = "")
      ∧ (pa.importe = "" →
          (parseNumero pa.cantidad = none ∨ parseNumero pa.precio_unitario = none)) := by
  unfold getPartidas at hp
  split at hp
  case isFalse => exact absurd hp (by simp)
  case isTrue hcomp =>
    have hsal := Option.some.inj hp
    subst hsal
    obtain ⟨c, -, hpa⟩ := List.mem_map.mp hmem
    subst hpa
    have himp : (mkPartida p c).importe =
        (match parseNumero ((mkPartida p c).cantidad),
               parseNumero ((mkPartida p c).precio_unitario) with
          | some x, some y => formatImporte (decMul x y)
          | _, _ => "") := rfl
    refine ⟨?_, ?_, ?_⟩
    · intro x y hx hy
      rw [himp, hx, hy]
    · intro hor
      rcases hor with h1 | h1
      · rw [himp, h1]
      · rcases hcant : parseNumero ((mkPartida p c).cantidad) with - | x
        · rw [himp, hcant]
        · rw [himp, hcant, h1]
    · intro hempty
      by_contra hcon
      push_neg at hcon
      obtain ⟨h1, h2⟩ := hcon
      rcases hx : parseNumero ((mkPartida p c).cantidad) with - | x
      · exact h1 hx
      rcases hy : parseNumero ((mkPartida p c).precio_unitario) with - | y
      · exact h2 hy
      rw [himp, hx, hy] at hempty
      exact formatImporte_ne_vacio _ hempty

/-- Witness for C3: in the one-item budget of `contenidoUno`, quantity
`"10"` and price `"2,50"` both parse and the amount is
`formatImporte (10 × 2.50) = "25,00"`. -/
theorem c3_importe_witness :
    parseNumero ((partidasUno.headD partidaVacia).cantidad) = some ⟨10, 0⟩
      ∧ parseNumero ((partidasUno.headD partidaVacia).precio_unitario) = some ⟨250, 2⟩
      ∧ (partidasUno.headD partidaVacia).importe = formatImporte (decMul ⟨10, 0⟩ ⟨250, 2⟩)
      ∧ (partidasUno.headD partidaVacia).importe = "25,00" := by
  refine ⟨by decide, by decide, ?_, by decide⟩
  exact (c3_importe presupuestoUno partidasUno (partidasUno.headD partidaVacia)
    (by decide) (by decide)).1 ⟨10, 0⟩ ⟨250, 2⟩ (by decide) (by decide)

/-- **C9.** Whenever flattening succeeds, the codes of the produced line
items are pairwise distinct and are exactly the union of the key sets of
`conceptos` and `mediciones`: a code appears as a line item if and only if
it has a concept entry or a measurement entry, so codes present only in
`descomposiciones` or `textos` never appear, while a code with only one of
concept/measurement does. -/
theorem c9_codigos (p : PresupuestoBC3) (salida : List Partida)
    (hp : getPartidas p = some salida) :
    (salida.map Partida.codigo).Nodup
      ∧ ∀ c : String, c ∈ salida.map Partida.codigo ↔
          (c ∈ dictKeys p.conceptos ∨ c ∈ dictKeys p.mediciones) := by
  unfold getPartidas at hp
  split at hp
  case isFalse => exact absurd hp (by simp)
  case isTrue hcomp =>
    have hsal := Option.some.inj hp
    subst hsal
    have hcod : ((sortByLe codeLe (codigosPresupuesto p)).map (mkPartida p)).map Partida.codigo
        = sortByLe codeLe (codigosPresupuesto p) := by
      rw [List.map_map]
      have hid : Partida.codigo ∘ mkPartida p = id := funext (fun c => mkPartida_codigo p c)
      rw [hid, List.map_id]
    have hperm := sortByLe_perm codeLe (codigosPresupuesto p)
    constructor
    · rw [hcod]
      exact (hperm.nodup_iff).mpr (List.nodup_dedup _)
    · intro c
      rw [hcod, hperm.mem_iff]
      unfold codigosPresupuesto
      rw [List.mem_dedup, List.mem_append]

/-- Witness for C9: in the budget of `contenidoMapas` (concept-only `01`,
measurement-only `02`, text-only `03`, decomposition-only `04`), the
line-item codes are duplicate-free, the measurement-only code `02` appears,
and the text-only code `03` does not. -/
theorem c9_codigos_witness :
    (partidasMapas.map Partida.codigo).Nodup
      ∧ ("02" ∈ partidasMapas.map Partida.codigo ↔
          ("02" ∈ dictKeys presupuestoMapas.conceptos
            ∨ "02" ∈ dictKeys presupuestoMapas.mediciones))
      ∧ ("03" ∈ partidasMapas.map Partida.codigo ↔
          ("03" ∈ dictKeys presupuestoMapas.conceptos
            ∨ "03" ∈ dictKeys presupuestoMapas.mediciones)) := by
  have h := c9_codigos presupuestoMapas partidasMapas (by decide)
  exact ⟨h.1, h.2 "02", h.2 "03"⟩
